import Mathlib

/-!
Verification of the BOM enrichment backend (`backend/app/bom` plus `backend/app/main.py`).

The Python source is shallowly embedded:
* dynamic JSON values become the `Json` inductive below;
* the module-level on-disk cache (`.octopart_cache`) and the in-memory job cache
  (`bom_data_cache`) become association lists keyed by strings;
* the external collaborators (the LLM structured-inference calls, the Nexar/Octopart
  HTTP transport, cache-file I/O success) become explicit environment parameters, so a
  Python `try`/`except` around such a call becomes a `match` on the supplied outcome;
* `async` code is embedded as pure state passing; `asyncio.gather` over a task list is
  embedded as a list map that keeps the task-submission order (which is exactly the
  ordering guarantee `gather` provides), and `asyncio.Semaphore` is embedded as a
  small transition system on counters.
All definitions are executable.
-/

/-- A JSON value as produced by `json.loads`.  Numbers are modelled as integers:
no claim concerns fractional values, and the only numeric field any claim touches
(`quantity`) is declared `int` in `schemas.py`. -/
inductive Json where
  | null
  | bool (b : Bool)
  | num (n : Int)
  | str (s : String)
  | arr (elems : List Json)
  | obj (fields : List (String × Json))

/-- Field lookup on a JSON object: `d.get(key)` for a dict, `None` otherwise. -/
def Json.getField : Json → String → Option Json
  | .obj fields, key => (fields.find? (fun p => p.1 == key)).map (fun p => p.2)
  | _, _ => none

/-- Python truthiness of a JSON value (`if x:` on the corresponding Python value). -/
def jsonTruthy : Json → Bool
  | .null => false
  | .bool b => b
  | .num n => n != 0
  | .str s => !s.isEmpty
  | .arr elems => !elems.isEmpty
  | .obj fields => !fields.isEmpty

/-- Substring test on character lists: `sub` occurs contiguously in `s`. -/
def listContainsSub : List Char → List Char → Bool
  | [], sub => sub.isEmpty
  | c :: rest, sub => List.isPrefixOf sub (c :: rest) || listContainsSub rest sub

/-- The characters of a string, lower-cased. -/
def lowerData (s : String) : List Char := s.data.map Char.toLower

/-- Case-insensitive "mentions": `sub` occurs in `s` up to ASCII case. -/
def strMentions (s sub : String) : Bool := listContainsSub (lowerData s) (lowerData sub)

/-- Python `str.lower()`: ASCII lower-casing character by character. -/
def strToLower (s : String) : String := ⟨s.data.map Char.toLower⟩

/-- A string-keyed associative store.  It models both the on-disk catalog cache
(one JSON file per sanitized MPN in `.octopart_cache/`) and the in-memory
`bom_data_cache` dictionary of `main.py`. -/
def Cache (α : Type) : Type := List (String × α)

/-- Read a key: `cache_path.exists()` + `json.load`, or `dict.get`. -/
def Cache.get {α : Type} (c : Cache α) (key : String) : Option α :=
  (List.find? (fun p => p.1 == key) c).map (fun p => p.2)

/-- Write a key, overwriting any previous value for it (`open(path, "w")`, or
`dict[key] = value`). -/
def Cache.put {α : Type} (c : Cache α) (key : String) (v : α) : Cache α :=
  (key, v) :: List.filter (fun p => !(p.1 == key)) c

/-! ## Data model (`backend/app/bom/schemas.py`) -/

/-- Embeds `schemas.OctopartSpec`. -/
structure OctopartSpec where
  name : Option String := none
  value : Option String := none
  units : Option String := none

/-- Embeds `schemas.OctopartPriceBreak`.  The `price: Optional[float]` field is modelled as a
rational number; no claim touches prices. -/
structure OctopartPriceBreak where
  quantity : Option Int := none
  price : Option Rat := none
  currency : Option String := none

/-- Embeds `schemas.OctopartOffer`. -/
structure OctopartOffer where
  inventory_level : Option Int := none
  prices : List OctopartPriceBreak := []

/-- Embeds `schemas.OctopartSeller`. -/
structure OctopartSeller where
  company_name : Option String := none
  offers : List OctopartOffer := []

/-- Embeds `schemas.SimilarPart`. -/
structure SimilarPart where
  mpn : Option String := none
  manufacturer_name : Option String := none
  octopart_url : Option String := none
  short_description : Option String := none
  specs : List OctopartSpec := []
  sellers : List OctopartSeller := []

/-- Embeds `schemas.OctopartPart`. -/
structure OctopartPart where
  mpn : Option String := none
  manufacturer_name : Option String := none
  short_description : Option String := none
  octopart_url : Option String := none
  specs : List OctopartSpec := []
  sellers : List OctopartSeller := []
  similar_parts : List SimilarPart := []

/-- Embeds `schemas.ValidationResult`. -/
structure ValidationResult where
  is_valid : Bool
  reasoning : String

/-- Embeds `schemas.CostAnalysis`.  Floats modelled as rationals; no claim touches them. -/
structure CostAnalysis where
  original_part_cost : Option Rat := none
  alternative_part_cost : Option Rat := none
  savings_per_board : Option Rat := none
  total_savings : Option Rat := none

/-- Embeds `schemas.ExtractedParameters`. -/
structure ExtractedParameters where
  electrical_value : Option String := none
  tolerance : Option String := none
  voltage : Option String := none
  package_footprint : Option String := none

/-- Embeds `schemas.ParsedBomItem`.  Note that `quantity` is declared plain `int` in the
source, with no `ge=0` bound and no validator relating it to `designators`. -/
structure ParsedBomItem where
  original_row_text : String
  manufacturer_part_number : Option String := none
  designators : List String
  quantity : Int
  parameters : ExtractedParameters
  parsing_notes : Option String := none
  octopart_data : Option OctopartPart := none
  recommended_alternative : Option SimilarPart := none
  cost_analysis : Option CostAnalysis := none

/-- Embeds `schemas.BomColumnMapping`. -/
structure BomColumnMapping where
  manufacturer_part_number : Option String := none
  designators : Option String := none
  quantity : Option String := none
  description : Option String := none

/-- The error record built in `_parse_and_enrich_row`'s `except` branch:
`{"error": ..., "details": ..., "row_data": ...}`.  This is the spec's RowError. -/
structure RowError where
  error : String
  details : String
  row_data : Json

/-! ## Pydantic validation of the extraction output

`logic._parse_and_enrich_row` runs `ParsedBomItem.model_validate(response_json)` on the
JSON returned by the extraction capability (the `service.py` variant obtains the same
validated object through the structured-parse API).  The validator below mirrors
pydantic for this schema: required fields must be present with the declared type,
`Optional` fields default to `None`, extra keys are ignored.  Two simplifications:
lax string-to-number coercions are not modelled, and the enrichment-side fields
(`octopart_data`, `recommended_alternative`, `cost_analysis`) — which the extraction
capability is never asked to produce — are required to be absent or null; a payload
carrying one is outside the modelled input space and rejected. -/

/-- Validate an `Optional[str]` field: absent or null is `None`, a string passes,
anything else is a validation error. -/
def jsonOptStr : Option Json → Except String (Option String)
  | none => .ok none
  | some .null => .ok none
  | some (.str s) => .ok (some s)
  | some _ => .error "Input should be a valid string"

/-- Validate a required `str` field. -/
def jsonReqStr : Option Json → Except String String
  | some (.str s) => .ok s
  | some _ => .error "Input should be a valid string"
  | none => .error "Field required"

/-- Validate a required `List[str]` field. -/
def jsonStrList : Option Json → Except String (List String)
  | some (.arr elems) =>
      elems.foldr
        (fun e acc =>
          match e, acc with
          | .str s, .ok rest => .ok (s :: rest)
          | _, .ok _ => .error "Input should be a valid string"
          | _, .error msg => .error msg)
        (.ok [])
  | some _ => .error "Input should be a valid list"
  | none => .error "Field required"

/-- Validate a required `int` field. -/
def jsonReqInt : Option Json → Except String Int
  | some (.num n) => .ok n
  | some _ => .error "Input should be a valid integer"
  | none => .error "Field required"

/-- Require an enrichment-side field to be absent or null (see the note above). -/
def jsonAbsent : Option Json → Except String Unit
  | none => .ok ()
  | some .null => .ok ()
  | some _ => .error "enrichment-side field present: outside the modelled input space"

/-- Embeds `ExtractedParameters.model_validate`. -/
def ExtractedParameters_model_validate (j : Json) : Except String ExtractedParameters :=
  match j with
  | .obj _ => do
      let ev ← jsonOptStr (j.getField "electrical_value")
      let tol ← jsonOptStr (j.getField "tolerance")
      let volt ← jsonOptStr (j.getField "voltage")
      let pf ← jsonOptStr (j.getField "package_footprint")
      .ok { electrical_value := ev, tolerance := tol, voltage := volt, package_footprint := pf }
  | _ => .error "Input should be a valid dictionary"

/-- Embeds `ParsedBomItem.model_validate(response_json)` as run by `_parse_and_enrich_row`. -/
def ParsedBomItem_model_validate (j : Json) : Except String ParsedBomItem :=
  match j with
  | .obj _ => do
      let ort ← jsonReqStr (j.getField "original_row_text")
      let mpn ← jsonOptStr (j.getField "manufacturer_part_number")
      let des ← jsonStrList (j.getField "designators")
      let qty ← jsonReqInt (j.getField "quantity")
      let params ←
        match j.getField "parameters" with
        | none => .error "Field required"
        | some pj => ExtractedParameters_model_validate pj
      let notes ← jsonOptStr (j.getField "parsing_notes")
      let _ ← jsonAbsent (j.getField "octopart_data")
      let _ ← jsonAbsent (j.getField "recommended_alternative")
      let _ ← jsonAbsent (j.getField "cost_analysis")
      .ok { original_row_text := ort, manufacturer_part_number := mpn,
            designators := des, quantity := qty, parameters := params,
            parsing_notes := notes }
  | _ => .error "Input should be a valid dictionary"

/-! ## Catalog client (`backend/app/bom/octopart_client.py`)

`find_part_by_mpn(mpn, sema)` checks the file cache, and on a miss acquires one
semaphore slot, performs the HTTP POST, optionally writes the cache, and releases the
slot — every exception path is caught inside the function and turns into `None`.
The embedding returns, besides the result and the updated cache, the ordered list of
observable events the call performs, so that "no network access", "no cache write"
and "never acquires a limiter slot" are statements about that list. -/

/-- The module-level `CACHE_ENABLED = True` flag. -/
def CACHE_ENABLED : Bool := true

/-- Capacity of the `asyncio.Semaphore(10)` created by `parse_bom_items` (`service.py` line 198) and by
`get_bom_data_with_alternatives` (`logic.py` line 175). -/
def OCTOPART_SEMAPHORE_CAPACITY : Nat := 10

/-- Hex digit used by percent-encoding (uppercase, as `urllib.parse` produces). -/
def hexDigit (n : Nat) : Char :=
  if n < 10 then Char.ofNat (48 + n) else Char.ofNat (55 + n)

/-- Characters `urllib.parse.quote_plus` leaves unescaped (besides the space). -/
def isQuoteSafe (c : Char) : Bool :=
  c.isAlphanum || c == '-' || c == '_' || c == '.' || c == '~'

/-- Embeds `urllib.parse.quote_plus` restricted to single-byte (ASCII) identifiers: safe
characters pass through, a space becomes `+`, anything else becomes `%XX`.  Every
identifier appearing in the claims is ASCII; multi-byte UTF-8 sequences are not
modelled. -/
def quotePlus (s : String) : String :=
  ⟨(s.data.map (fun c =>
      if isQuoteSafe c then [c]
      else if c == ' ' then ['+']
      else ['%', hexDigit (c.toNat / 16), hexDigit (c.toNat % 16)])).flatten⟩

/-- The cache key for an MPN: `quote_plus(mpn) + ".json"` (the file name inside
`.octopart_cache/`). -/
def cacheKey (mpn : String) : String := quotePlus mpn ++ ".json"

/-- One observable step performed by `find_part_by_mpn`. -/
inductive ClientEvent where
  | cacheRead (key : String)
  | semAcquire
  | httpPost (mpn : String)
  | cacheWrite (key : String)
  | semRelease

/-- The outcome of the `client.post` call together with response decoding, i.e.
everything that can happen inside the `try` of the `async with` block. -/
inductive ApiResponse where
  /-- Case where `response.raise_for_status()` raised `httpx.HTTPStatusError`
  (this includes a 429 rate-limit response). -/
  | httpStatusError (status : Nat) (text : String)
  /-- Case of `httpx.RequestError`: a transport failure. -/
  | requestError (msg : String)
  /-- Any other exception while posting or decoding (malformed payload, missing
  `"part"` key, ...), caught by the final `except Exception`. -/
  | otherError (msg : String)
  /-- A decoded JSON body: whether `"errors"` is present in it, and the list of
  `results[i]["part"]` values of `data["data"]["supSearchMpn"]["results"]`. -/
  | body (hasErrors : Bool) (results : List Json)

/-- The environment a lookup runs against: credentials, the external service's
behaviour per identifier, and whether cache-file reads/decodes and writes succeed. -/
structure ClientEnv where
  /-- Whether `NEXAR_API_KEY` is set. -/
  apiKeySet : Bool
  response : String → ApiResponse
  /-- Whether `json.load` on an existing cache file succeeds (`False` models
  `json.JSONDecodeError`/`IOError`: a corrupt entry, treated as a miss). -/
  cacheReadOk : String → Bool
  /-- Whether `json.dump` to the cache file succeeds (`False` models the logged-and-swallowed
  `IOError`). -/
  cacheWriteOk : String → Bool

/-- The value of `results[0]["part"]` as the caller sees it: `None` when `results` is
empty, and `None` when that JSON value is null. -/
def firstPart : List Json → Option Json
  | [] => none
  | .null :: _ => none
  | p :: _ => some p

/-- What a lookup returns: the part (or `None`), the cache afterwards, and the events
the call performed in order. -/
structure LookupResult where
  result : Option Json
  cache : Cache Json
  events : List ClientEvent

/-- The miss path of `find_part_by_mpn`: everything from the `NEXAR_API_KEY` check to
the end of the function.  The semaphore is held from before the POST until the block
exits, so the cache write happens while holding the slot. -/
def fetch_from_api (env : ClientEnv) (cache : Cache Json) (mpn : String)
    (preEvents : List ClientEvent) : LookupResult :=
  if !env.apiKeySet then ⟨none, cache, preEvents⟩
  else
    match env.response mpn with
    | .httpStatusError _ _ =>
        ⟨none, cache, preEvents ++ [.semAcquire, .httpPost mpn, .semRelease]⟩
    | .requestError _ =>
        ⟨none, cache, preEvents ++ [.semAcquire, .httpPost mpn, .semRelease]⟩
    | .otherError _ =>
        ⟨none, cache, preEvents ++ [.semAcquire, .httpPost mpn, .semRelease]⟩
    | .body true _ =>
        ⟨none, cache, preEvents ++ [.semAcquire, .httpPost mpn, .semRelease]⟩
    | .body false results =>
        match firstPart results with
        | none => ⟨none, cache, preEvents ++ [.semAcquire, .httpPost mpn, .semRelease]⟩
        | some part =>
            if CACHE_ENABLED && jsonTruthy part && env.cacheWriteOk (cacheKey mpn) then
              ⟨some part, Cache.put cache (cacheKey mpn) part,
                preEvents ++ [.semAcquire, .httpPost mpn, .cacheWrite (cacheKey mpn),
                  .semRelease]⟩
            else
              ⟨some part, cache, preEvents ++ [.semAcquire, .httpPost mpn, .semRelease]⟩

/-- Embeds `octopart_client.find_part_by_mpn`. -/
def find_part_by_mpn (env : ClientEnv) (cache : Cache Json) (mpn : String) : LookupResult :=
  if mpn = "" then ⟨none, cache, []⟩
  else if CACHE_ENABLED then
    match Cache.get cache (cacheKey mpn) with
    | some part =>
        if env.cacheReadOk (cacheKey mpn) then
          ⟨some part, cache, [.cacheRead (cacheKey mpn)]⟩
        else
          fetch_from_api env cache mpn [.cacheRead (cacheKey mpn)]
    | none => fetch_from_api env cache mpn []
  else fetch_from_api env cache mpn []

/-- Number of outbound external calls in an event trace. -/
def httpCount (events : List ClientEvent) : Nat :=
  (events.filter (fun e => match e with | .httpPost _ => true | _ => false)).length

/-- Whether the response branch is one of the caught failure modes: an HTTP error
status (including rate limiting), a transport error, any other exception, or a
well-formed body whose `"errors"` field is populated. -/
def responseFails : ApiResponse → Bool
  | .httpStatusError _ _ => true
  | .requestError _ => true
  | .otherError _ => true
  | .body hasErrors _ => hasErrors

/-! ## Row enrichment workers (`service._parse_and_enrich_row` and
`logic._parse_and_enrich_row`)

Both variants: ask the extraction capability for the row, validate its JSON into a
`ParsedBomItem`, and — when a non-empty MPN was extracted — look the part up and build
an `OctopartPart` from the raw payload.  The environment supplies the collaborator
outcomes: `llmReply` is the chat-completion content after `json.loads` (an `error`
models a transport failure, a refusal, or undecodable content), `lookupResult` is what
`find_part_by_mpn` returned for the extracted MPN, and `build raw` is the outcome of
constructing the `OctopartPart` object from the raw dictionary (pydantic
`OctopartPart(**octopart_data)` in `logic.py`; the manual field-by-field build in
`service.py`) — fallible because the payload's dynamic shape may not fit.

The single difference between the two variants is where a `build` failure lands:
`service.py` wraps the build in its own inner `try`/`except` (lines 154-182) and keeps
the item, while in `logic.py` (line 150) the build runs directly under the outer
`try`, whose handler returns the row-error record. -/

structure RowEnv where
  llmReply : Except String Json
  lookupResult : Option Json
  build : Json → Except String OctopartPart

/-- The extraction step shared by both workers: the LLM reply followed by
`ParsedBomItem.model_validate`. -/
def extractionOf (env : RowEnv) : Except String ParsedBomItem :=
  match env.llmReply with
  | .error e => .error e
  | .ok j => ParsedBomItem_model_validate j

/-- Embeds `service._parse_and_enrich_row(row_tuple, mapping, sema)` for row index `index`
(0-based, so the reported row number is `index + 1`). -/
def service_parse_and_enrich_row (env : RowEnv) (index : Nat) (rowData : Json) :
    Sum ParsedBomItem RowError :=
  match extractionOf env with
  | .error e => .inr ⟨"Failed to process row " ++ toString (index + 1), e, rowData⟩
  | .ok item =>
      match item.manufacturer_part_number with
      | none => .inl item
      | some mpn =>
          if mpn = "" then .inl item
          else
            match env.lookupResult with
            | none => .inl item
            | some raw =>
                if jsonTruthy raw then
                  match env.build raw with
                  | .ok od => .inl { item with octopart_data := some od }
                  | .error _ => .inl item
                else .inl item

/-- Embeds `logic._parse_and_enrich_row(row_tuple, mapping, sema)`. -/
def logic_parse_and_enrich_row (env : RowEnv) (index : Nat) (rowData : Json) :
    Sum ParsedBomItem RowError :=
  match extractionOf env with
  | .error e => .inr ⟨"Failed to process row " ++ toString (index + 1), e, rowData⟩
  | .ok item =>
      match item.manufacturer_part_number with
      | none => .inl item
      | some mpn =>
          if mpn = "" then .inl item
          else
            match env.lookupResult with
            | none => .inl item
            | some raw =>
                if jsonTruthy raw then
                  match env.build raw with
                  | .ok od => .inl { item with octopart_data := some od }
                  | .error e =>
                      .inr ⟨"Failed to process row " ++ toString (index + 1), e, rowData⟩
                else .inl item

/-! ## Batch orchestrator (`service.parse_bom_items`)

`tasks = [_parse_and_enrich_row(row_tuple, mapping, sema) for row_tuple in
enumerate(bom_rows)]; results = await asyncio.gather(*tasks)`: one task per row, and
`gather` returns one result per task, in task-submission order, regardless of the
order in which the tasks complete.  The embedding maps the worker over the rows
paired with their per-row collaborator outcomes, carrying the `enumerate` index. -/

def parse_bom_items_from (index : Nat) :
    List Json → List RowEnv → List (Sum ParsedBomItem RowError)
  | [], _ => []
  | _, [] => []
  | row :: rows, env :: envs =>
      service_parse_and_enrich_row env index row :: parse_bom_items_from (index + 1) rows envs

/-- Embeds `service.parse_bom_items(df, mapping)` on the rows of the table, given the
collaborator outcomes for each row. -/
def parse_bom_items (rows : List Json) (envs : List RowEnv) :
    List (Sum ParsedBomItem RowError) :=
  parse_bom_items_from 0 rows envs

/-! ## The caller-visible summary (`logic.get_bom_data_with_alternatives`, lines
188-203)

After storing the full per-row data in the job cache, the function returns a summary
built by a loop that first skips any item whose `manufacturer_part_number` is missing,
empty or a blacklisted manufacturer name (`if not mpn or mpn.lower() in [...]:
continue`), then appends either an error entry (`if "error" in item`) or a part
entry. -/

/-- One stored item: a dumped `ParsedBomItem` or the error record. -/
def ProcessedItem : Type := Sum ParsedBomItem RowError

/-- Accessor `item.get("manufacturer_part_number")`: the error record has no such key. -/
def itemMpn : ProcessedItem → Option String
  | .inl item => item.manufacturer_part_number
  | .inr _ => none

/-- The manufacturer names the summary loop blacklists. -/
def mpnBlacklist : List String :=
  ["texas instruments", "panasonic", "vishay", "bourns", "cliff", "rubycon"]

/-- One entry of the returned summary. -/
inductive SummaryEntry where
  | err (error : String) (row_data : Json)
  | part (mpn : Option String) (description : Option String)
      (has_alternatives : String) (alternatives : List (Option String))

/-- Accessor chain `item.get("octopart_data", dict()).get("similar_parts", [])`. -/
def itemSimilarParts : ProcessedItem → List SimilarPart
  | .inl item =>
      match item.octopart_data with
      | some od => od.similar_parts
      | none => []
  | .inr _ => []

/-- The summary entry built for a non-skipped parsed item. -/
def summaryPartEntry (item : ParsedBomItem) : SummaryEntry :=
  .part item.manufacturer_part_number
    (match item.octopart_data with
     | some od => od.short_description
     | none => none)
    (match item.octopart_data with
     | some od => if od.similar_parts.isEmpty then "No" else "Yes"
     | none => "No")
    (match item.octopart_data with
     | some od => od.similar_parts.map (fun p => p.mpn)
     | none => [])

/-- The summary loop of `get_bom_data_with_alternatives`. -/
def summaryOf : List ProcessedItem → List SummaryEntry
  | [] => []
  | item :: rest =>
      let skip :=
        match itemMpn item with
        | none => true
        | some mpn => mpn.isEmpty || mpnBlacklist.contains (strToLower mpn)
      if skip then summaryOf rest
      else
        match item with
        | .inr e => .err e.error e.row_data :: summaryOf rest
        | .inl it => summaryPartEntry it :: summaryOf rest

/-- Embeds `start_bom_processing` (`service.py` lines 226-230) returns the full
`parsed_items_result` list — parsed items dumped, error records as-is — so every
stored item surfaces there.  The embedding keeps the list as-is. -/
def start_bom_processing_parsed_items (results : List ProcessedItem) : List ProcessedItem :=
  results

/-! ## Alternative evaluator (`logic.evaluate_alternative`)

The tool looks the job up in the server-side cache, finds the original part and the
named candidate among its similar parts, simplifies both records, and asks the
judgment capability for a verdict; the judgment call sits in a `try` whose handler
returns an `is_valid=False` verdict.  `judgment` is the supplied outcome of that
call (an `error` models any exception, including a refusal).  `assumptions` only
flows into the prompt text, never into the returned structure. -/

/-- The reduced record `_simplify_part_for_prompt` builds. -/
structure SimplePart where
  manufacturer_part_number : Option String
  description : Option String
  specs : List (String × String)
  sellers : List String

/-- The pairs of the dumped `ExtractedParameters` dict (dumped with
`exclude_none=True`, so absent fields contribute nothing). -/
def paramsPairs (p : ExtractedParameters) : List (String × String) :=
  (match p.electrical_value with | some v => [("electrical_value", v)] | none => []) ++
  (match p.tolerance with | some v => [("tolerance", v)] | none => []) ++
  (match p.voltage with | some v => [("voltage", v)] | none => []) ++
  (match p.package_footprint with | some v => [("package_footprint", v)] | none => [])

/-- One entry of the `specs` dict: skipped unless the attribute name is truthy, value
rendered as `f"{value} {units}".strip()` on the `exclude_none` dump (an absent value
prints as `None`, absent units default to the empty string). -/
def specPair (s : OctopartSpec) : Option (String × String) :=
  match s.name with
  | none => none
  | some n =>
      if n.isEmpty then none
      else some (n, ((s.value.getD "None") ++ " " ++ (s.units.getD "")).trim)

/-- Embeds `_simplify_part_for_prompt` on a dumped `ParsedBomItem`: the fallback branch fires
when `octopart_data` is absent (the dumped dict has no `description` key, so the
fallback description is always `"N/A"`). -/
def simplify_item (item : ParsedBomItem) : SimplePart :=
  match item.octopart_data with
  | none =>
      { manufacturer_part_number := item.manufacturer_part_number
        description := some "N/A"
        specs := paramsPairs item.parameters
        sellers := [] }
  | some od =>
      { manufacturer_part_number := od.mpn
        description := od.short_description
        specs := od.specs.filterMap specPair
        sellers := od.sellers.filterMap (fun s => s.company_name) }

/-- Embeds `_simplify_part_for_prompt({"octopart_data": alternative_part_data})` on a dumped
`SimilarPart` candidate. -/
def simplify_similar (p : SimilarPart) : SimplePart :=
  { manufacturer_part_number := p.mpn
    description := p.short_description
    specs := p.specs.filterMap specPair
    sellers := p.sellers.filterMap (fun s => s.company_name) }

/-- Embeds `_simplify_part_for_prompt` on a stored item (an error record has neither
`octopart_data` nor `description`, so it takes the fallback branch). -/
def simplifyProcessed : ProcessedItem → SimplePart
  | .inl item => simplify_item item
  | .inr _ =>
      { manufacturer_part_number := none, description := some "N/A",
        specs := [], sellers := [] }

/-- Step `full_bom_data = cache.get(job_id)` followed by `if not full_bom_data:` — an
absent job and a stored empty list are both treated as "no data". -/
def jobLookup (cache : Cache (List ProcessedItem)) (jobId : String) :
    Option (List ProcessedItem) :=
  match Cache.get cache jobId with
  | none => none
  | some [] => none
  | some items => some items

/-- What `evaluate_alternative` returns: the verdict plus the simplified records it
sent to the judgment capability (`none` models the empty dict `{}` returned on the
not-found paths). -/
structure EvalResult where
  validation_result : ValidationResult
  original_part : Option SimplePart
  alternative_part : Option SimplePart

/-- Embeds `logic.evaluate_alternative(job_id, original_mpn, alternative_mpn, assumptions,
cache)`. -/
def evaluate_alternative (judgment : Except String ValidationResult)
    (assumptions : Json) (jobId origMpn altMpn : String)
    (cache : Cache (List ProcessedItem)) : EvalResult :=
  match jobLookup cache jobId with
  | none =>
      ⟨⟨false, "Error: No data found in cache for job_id \x27" ++ jobId ++
          "\x27. Cannot perform evaluation."⟩, none, none⟩
  | some data =>
      match data.find? (fun it => itemMpn it == some origMpn) with
      | none =>
          ⟨⟨false, "Error: Original part with MPN \x27" ++ origMpn ++
              "\x27 not found in cached data."⟩, none, none⟩
      | some orig =>
          match (itemSimilarParts orig).find? (fun p => p.mpn == some altMpn) with
          | none =>
              ⟨⟨false, "Error: Alternative part with MPN \x27" ++ altMpn ++
                  "\x27 not found for original part \x27" ++ origMpn ++ "\x27."⟩,
                some (simplifyProcessed orig), none⟩
          | some alt =>
              match judgment with
              | .ok verdict =>
                  ⟨verdict, some (simplifyProcessed orig), some (simplify_similar alt)⟩
              | .error e =>
                  ⟨⟨false, "An internal error occurred during validation: " ++ e⟩,
                    some (simplifyProcessed orig), some (simplify_similar alt)⟩

/-! ## The semaphore (`asyncio.Semaphore`)

`async with sema:` acquires one slot (suspending while none is free) and releases it
when the block exits.  The transition system below is the standard small-step model:
a state holds the number of free slots and the number of tasks currently inside the
block; an acquire needs a free slot.  `SemReachable cap` are the states reachable
from the freshly constructed `asyncio.Semaphore(cap)`. -/

structure SemState where
  free : Nat
  holding : Nat

inductive SemStep : SemState → SemState → Prop where
  | acquire (s : SemState) (h : 0 < s.free) :
      SemStep s ⟨s.free - 1, s.holding + 1⟩
  | release (s : SemState) (h : 0 < s.holding) :
      SemStep s ⟨s.free + 1, s.holding - 1⟩

inductive SemReachable (cap : Nat) : SemState → Prop where
  | init : SemReachable cap ⟨cap, 0⟩
  | step {s t : SemState} : SemReachable cap s → SemStep s t → SemReachable cap t

/-! ## The evaluation fan-out in `main.stream_text` (lines 132-144)

The orchestrator builds one task per summary entry with
`evaluate_alternative(part=part, assumptions=assumptions)` and gathers them.  Python
binds a keyword-argument call successfully iff every keyword names a parameter and
every parameter without a default gets a value; otherwise the call raises `TypeError`
at task-construction time, inside the orchestrator's single `try`. -/

/-- The parameters of `logic.evaluate_alternative`, all without defaults. -/
def evaluate_alternative_params : List String :=
  ["job_id", "original_mpn", "alternative_mpn", "assumptions", "cache"]

/-- The keyword arguments `stream_text` passes when building each evaluation task. -/
def stream_text_evaluate_kwargs : List String := ["part", "assumptions"]

/-- Python keyword-argument binding for a call that passes no positional arguments to
a function whose parameters all lack defaults. -/
def pythonKwargsBind (params kwargs : List String) : Bool :=
  kwargs.all (fun k => params.contains k) && params.all (fun p => kwargs.contains p)

/-- The system message sent for each row by `logic._parse_and_enrich_row`
(line 140): quantity inference is delegated to the extraction capability by prompt. -/
def logic_row_system_prompt : String :=
  "You are an expert AI that parses a single BOM row into a JSON object conforming to the provided schema. If quantity is missing, count the designators."

/-! ## Concrete instances used by counterexamples and witnesses -/

/-- An environment whose external service answers every query with a well-formed body
holding zero results, with credentials set and perfectly working cache storage. -/
def emptyResultEnv : ClientEnv :=
  { apiKeySet := true
    response := fun _ => .body false []
    cacheReadOk := fun _ => true
    cacheWriteOk := fun _ => true }

/-- An environment whose external service finds one part for every query. -/
def singleResultEnv : ClientEnv :=
  { apiKeySet := true
    response := fun _ => .body false [.obj [("mpn", .str "RC0402JR-071RL")]]
    cacheReadOk := fun _ => true
    cacheWriteOk := fun _ => true }

/-- An environment whose external service always fails with a transport error. -/
def transportFailEnv : ClientEnv :=
  { apiKeySet := true
    response := fun _ => .requestError "connection reset"
    cacheReadOk := fun _ => true
    cacheWriteOk := fun _ => true }

/-- A row environment whose extraction reply is a failure. -/
def failingRowEnv : RowEnv :=
  { llmReply := .error "ValueError: LLM failed to parse row"
    lookupResult := none
    build := fun _ => .error "unused" }

/-- A well-formed extraction reply for a row with MPN `A1` and one designator. -/
def okReply : Json :=
  .obj [("original_row_text", .str "R1 10k 0402"),
    ("manufacturer_part_number", .str "A1"),
    ("designators", .arr [.str "R1"]),
    ("quantity", .num 1),
    ("parameters", .obj [])]

/-- The `ParsedBomItem` that `okReply` validates to. -/
def okItem : ParsedBomItem :=
  { original_row_text := "R1 10k 0402"
    manufacturer_part_number := some "A1"
    designators := ["R1"]
    quantity := 1
    parameters := {} }

/-- A row environment where extraction succeeds, the catalog lookup returns a payload,
and building the `OctopartPart` object from it fails (for instance because the
payload's `similarParts` is not a list, which fails pydantic validation). -/
def buildFailRowEnv : RowEnv :=
  { llmReply := .ok okReply
    lookupResult := some (.obj [("similarParts", .str "oops")])
    build := fun _ => .error "1 validation error for OctopartPart" }

/-- A source row with no quantity column. -/
def noQuantityRow : Json :=
  .obj [("Designator", .str "R1, R2"), ("Description", .str "10k resistor")]

/-- An extraction reply for `noQuantityRow` whose quantity is the integer `q`:
two designators, arbitrary quantity. -/
def twoDesignatorReply (q : Int) : Json :=
  .obj [("original_row_text", .str "R1, R2 10k resistor"),
    ("manufacturer_part_number", .null),
    ("designators", .arr [.str "R1", .str "R2"]),
    ("quantity", .num q),
    ("parameters", .obj []),
    ("parsing_notes", .null)]

/-- The item `twoDesignatorReply q` validates to. -/
def twoDesignatorItem (q : Int) : ParsedBomItem :=
  { original_row_text := "R1, R2 10k resistor"
    designators := ["R1", "R2"]
    quantity := q
    parameters := {} }

/-- An extraction reply whose quantity is not an integer. -/
def nonIntQuantityReply : Json :=
  .obj [("original_row_text", .str "R1, R2 10k resistor"),
    ("manufacturer_part_number", .null),
    ("designators", .arr [.str "R1", .str "R2"]),
    ("quantity", .str "two"),
    ("parameters", .obj [])]

/-- A row environment delivering `twoDesignatorReply (-5)` with no catalog hit. -/
def negativeQuantityRowEnv : RowEnv :=
  { llmReply := .ok (twoDesignatorReply (-5))
    lookupResult := none
    build := fun _ => .error "unused" }

/-- The error record of a failed row, as stored in the processed data. -/
def sampleRowError : RowError :=
  ⟨"Failed to process row 3", "ValueError: LLM refusal",
    .obj [("Part Number", .str "ABC123")]⟩

/-- A successfully parsed item with a non-blacklisted MPN. -/
def sampleGoodItem : ParsedBomItem :=
  { original_row_text := "r"
    manufacturer_part_number := some "ABC123"
    designators := ["R1"]
    quantity := 1
    parameters := {} }

/-- A stored item for job `job1`: original MPN `A1` with one similar part `B1`. -/
def storedItemWithAlternative : ParsedBomItem :=
  { original_row_text := "r"
    manufacturer_part_number := some "A1"
    designators := ["R1"]
    quantity := 1
    parameters := {}
    octopart_data := some { mpn := some "A1", similar_parts := [{ mpn := some "B1" }] } }

/-- A job cache holding one job (`job1`) whose single item is
`storedItemWithAlternative`. -/
def sampleJobCache : Cache (List ProcessedItem) :=
  [("job1", [Sum.inl storedItemWithAlternative])]

/-! ## Theorems -/

theorem isPrefixOf_append_of_isPrefixOf :
    ∀ (p s t : List Char), List.isPrefixOf p s = true → List.isPrefixOf p (s ++ t) = true := by
  intro p
  induction p with
  | nil => intro s t _; simp [List.isPrefixOf]
  | cons a as ih =>
      intro s t h
      cases s with
      | nil => simp [List.isPrefixOf] at h
      | cons b bs =>
          simp only [List.isPrefixOf, List.cons_append, Bool.and_eq_true] at h ⊢
          exact ⟨h.1, ih bs t h.2⟩

theorem listContainsSub_nil_sub : ∀ (s : List Char), listContainsSub s [] = true := by
  intro s
  cases s with
  | nil => rfl
  | cons c rest => simp [listContainsSub, List.isPrefixOf]

theorem listContainsSub_append_left (s t sub : List Char)
    (h : listContainsSub s sub = true) : listContainsSub (s ++ t) sub = true := by
  induction s with
  | nil =>
      simp only [listContainsSub, List.isEmpty_iff] at h
      subst h
      exact listContainsSub_nil_sub t
  | cons c rest ih =>
      simp only [listContainsSub, Bool.or_eq_true] at h
      rcases h with h | h
      · simp only [List.cons_append, listContainsSub, Bool.or_eq_true]
        exact Or.inl (isPrefixOf_append_of_isPrefixOf sub (c :: rest) t h)
      · simp only [List.cons_append, listContainsSub, Bool.or_eq_true]
        exact Or.inr (ih h)

theorem listContainsSub_append_right (s t sub : List Char)
    (h : listContainsSub t sub = true) : listContainsSub (s ++ t) sub = true := by
  induction s with
  | nil => simpa using h
  | cons c rest ih =>
      simp only [List.cons_append, listContainsSub, Bool.or_eq_true]
      exact Or.inr ih

theorem string_data_append (a b : String) : (a ++ b).data = a.data ++ b.data := by
  cases a; cases b; rfl

theorem lowerData_append (a b : String) : lowerData (a ++ b) = lowerData a ++ lowerData b := by
  simp [lowerData, string_data_append]

theorem strMentions_append_left (a b sub : String)
    (h : strMentions a sub = true) : strMentions (a ++ b) sub = true := by
  unfold strMentions at h ⊢
  rw [lowerData_append]
  exact listContainsSub_append_left _ _ _ h

theorem strMentions_append_right (a b sub : String)
    (h : strMentions b sub = true) : strMentions (a ++ b) sub = true := by
  unfold strMentions at h ⊢
  rw [lowerData_append]
  exact listContainsSub_append_right _ _ _ h

theorem Cache.get_put_self {α : Type} (c : Cache α) (key : String) (v : α) :
    Cache.get (Cache.put c key v) key = some v := by
  simp [Cache.get, Cache.put, List.find?]

theorem parse_bom_items_from_length (k : Nat) (rows : List Json) (envs : List RowEnv) :
    (parse_bom_items_from k rows envs).length = min rows.length envs.length := by
  induction rows generalizing k envs with
  | nil => simp [parse_bom_items_from]
  | cons r rs ih =>
      cases envs with
      | nil => simp [parse_bom_items_from]
      | cons e es =>
          simp only [parse_bom_items_from, List.length_cons, ih]
          omega

theorem parse_bom_items_from_get? (k i : Nat) (rows : List Json) (envs : List RowEnv) :
    (parse_bom_items_from k rows envs).get? i =
      (rows.get? i).bind (fun r => (envs.get? i).map
        (fun e => service_parse_and_enrich_row e (k + i) r)) := by
  induction rows generalizing k i envs with
  | nil => simp [parse_bom_items_from]
  | cons r rs ih =>
      cases envs with
      | nil => cases i <;> simp [parse_bom_items_from]
      | cons e es =>
          cases i with
          | zero => simp [parse_bom_items_from]
          | succ n =>
              simp only [parse_bom_items_from, List.get?_cons_succ, ih (k + 1) n es]
              have harith : k + 1 + n = k + (n + 1) := by omega
              rw [harith]

/-- C1: `parse_bom_items` yields exactly one result per input row, in input-row
order: the result list has the same length as the row list, and its `i`-th element is
exactly what the row-enrichment worker produces for the `i`-th row with its own
collaborator outcomes — so no row's failure can remove or displace another row's
result, and every element is (by type) either a `ParsedBomItem` or a `RowError`. -/
theorem parse_bom_items_row_aligned (rows : List Json) (envs : List RowEnv)
    (h : envs.length = rows.length) :
    (parse_bom_items rows envs).length = rows.length ∧
    ∀ i : Nat, (parse_bom_items rows envs).get? i =
      (rows.get? i).bind (fun r => (envs.get? i).map
        (fun e => service_parse_and_enrich_row e i r)) := by
  constructor
  · rw [parse_bom_items, parse_bom_items_from_length, h, Nat.min_self]
  · intro i
    simpa using parse_bom_items_from_get? 0 i rows envs

theorem parse_bom_items_row_aligned_witness :
    (parse_bom_items [noQuantityRow, noQuantityRow] [failingRowEnv, buildFailRowEnv]).length = 2 ∧
    (parse_bom_items [noQuantityRow, noQuantityRow] [failingRowEnv, buildFailRowEnv]).get? 1 =
      some (service_parse_and_enrich_row buildFailRowEnv 1 noQuantityRow) := by
  refine ⟨(parse_bom_items_row_aligned _ _ rfl).1, ?_⟩
  rw [(parse_bom_items_row_aligned [noQuantityRow, noQuantityRow]
    [failingRowEnv, buildFailRowEnv] rfl).2 1]
  rfl

theorem find_part_hit (env : ClientEnv) (cache : Cache Json) (mpn : String) (part : Json)
    (hm : mpn ≠ "") (hg : Cache.get cache (cacheKey mpn) = some part)
    (hr : env.cacheReadOk (cacheKey mpn) = true) :
    find_part_by_mpn env cache mpn =
      ⟨some part, cache, [ClientEvent.cacheRead (cacheKey mpn)]⟩ := by
  unfold find_part_by_mpn
  rw [if_neg hm]
  simp [CACHE_ENABLED, hg, hr]

theorem find_part_miss (env : ClientEnv) (cache : Cache Json) (mpn : String)
    (hm : mpn ≠ "") (hg : Cache.get cache (cacheKey mpn) = none) :
    find_part_by_mpn env cache mpn = fetch_from_api env cache mpn [] := by
  unfold find_part_by_mpn
  rw [if_neg hm]
  simp [CACHE_ENABLED, hg]

theorem httpCount_append (a b : List ClientEvent) :
    httpCount (a ++ b) = httpCount a + httpCount b := by
  simp [httpCount, List.filter_append]

theorem fetch_eq_noKey (env : ClientEnv) (cache : Cache Json) (mpn : String)
    (pre : List ClientEvent) (hk : env.apiKeySet = false) :
    fetch_from_api env cache mpn pre = ⟨none, cache, pre⟩ := by
  simp [fetch_from_api, hk]

theorem fetch_eq_fail (env : ClientEnv) (cache : Cache Json) (mpn : String)
    (pre : List ClientEvent) (hk : env.apiKeySet = true)
    (hf : responseFails (env.response mpn) = true) :
    fetch_from_api env cache mpn pre =
      ⟨none, cache,
        pre ++ [ClientEvent.semAcquire, ClientEvent.httpPost mpn, ClientEvent.semRelease]⟩ := by
  cases hresp : env.response mpn with
  | httpStatusError status text => simp [fetch_from_api, hk, hresp]
  | requestError msg => simp [fetch_from_api, hk, hresp]
  | otherError msg => simp [fetch_from_api, hk, hresp]
  | body hasErrors results =>
      rw [hresp] at hf
      simp only [responseFails] at hf
      subst hf
      simp [fetch_from_api, hk, hresp]

theorem fetch_eq_emptyResults (env : ClientEnv) (cache : Cache Json) (mpn : String)
    (pre : List ClientEvent) (results : List Json) (hk : env.apiKeySet = true)
    (hresp : env.response mpn = .body false results) (hfp : firstPart results = none) :
    fetch_from_api env cache mpn pre =
      ⟨none, cache,
        pre ++ [ClientEvent.semAcquire, ClientEvent.httpPost mpn, ClientEvent.semRelease]⟩ := by
  simp [fetch_from_api, hk, hresp, hfp]

theorem fetch_eq_found_write (env : ClientEnv) (cache : Cache Json) (mpn : String)
    (pre : List ClientEvent) (part : Json) (results : List Json) (hk : env.apiKeySet = true)
    (hresp : env.response mpn = .body false results) (hfp : firstPart results = some part)
    (htr : jsonTruthy part = true) (hw : env.cacheWriteOk (cacheKey mpn) = true) :
    fetch_from_api env cache mpn pre =
      ⟨some part, Cache.put cache (cacheKey mpn) part,
        pre ++ [ClientEvent.semAcquire, ClientEvent.httpPost mpn,
          ClientEvent.cacheWrite (cacheKey mpn), ClientEvent.semRelease]⟩ := by
  simp [fetch_from_api, hk, hresp, hfp, CACHE_ENABLED, htr, hw]

theorem fetch_found_result (env : ClientEnv) (cache : Cache Json) (mpn : String)
    (pre : List ClientEvent) (p : Json) (results : List Json) (hk : env.apiKeySet = true)
    (hresp : env.response mpn = .body false results) (hfp : firstPart results = some p) :
    (fetch_from_api env cache mpn pre).result = some p := by
  by_cases htr : jsonTruthy p = true
  · by_cases hw : env.cacheWriteOk (cacheKey mpn) = true
    · simp [fetch_from_api, hk, hresp, hfp, CACHE_ENABLED, htr, hw]
    · simp [fetch_from_api, hk, hresp, hfp, CACHE_ENABLED, htr, hw]
  · simp [fetch_from_api, hk, hresp, hfp, CACHE_ENABLED, htr]

theorem fetch_result_some_inv (env : ClientEnv) (cache : Cache Json) (mpn : String)
    (pre : List ClientEvent) (part : Json)
    (h : (fetch_from_api env cache mpn pre).result = some part) :
    env.apiKeySet = true ∧
      ∃ results, env.response mpn = .body false results ∧ firstPart results = some part := by
  cases hk : env.apiKeySet with
  | false => rw [fetch_eq_noKey env cache mpn pre hk] at h; simp at h
  | true =>
      refine ⟨rfl, ?_⟩
      cases hresp : env.response mpn with
      | httpStatusError status text =>
          rw [fetch_eq_fail env cache mpn pre hk (by rw [hresp]; rfl)] at h; simp at h
      | requestError msg =>
          rw [fetch_eq_fail env cache mpn pre hk (by rw [hresp]; rfl)] at h; simp at h
      | otherError msg =>
          rw [fetch_eq_fail env cache mpn pre hk (by rw [hresp]; rfl)] at h; simp at h
      | body hasErrors results =>
          cases hasErrors with
          | true =>
              rw [fetch_eq_fail env cache mpn pre hk (by rw [hresp]; rfl)] at h; simp at h
          | false =>
              cases hfp : firstPart results with
              | none => rw [fetch_eq_emptyResults env cache mpn pre results hk hresp hfp] at h; simp at h
              | some p =>
                  have hres := fetch_found_result env cache mpn pre p results hk hresp hfp
                  rw [hres] at h
                  exact ⟨results, rfl, by rw [hfp, Option.some.inj h]⟩

/-- C2 counterexample: when the external service answers a well-formed body with zero
results, nothing is cached, so calling `find_part_by_mpn` twice with the same
identifier issues an external call both times — two calls, not "at most one". -/
theorem cache_idempotence_counterexample :
    ¬ (httpCount (find_part_by_mpn emptyResultEnv [] "1N5822").events +
        httpCount (find_part_by_mpn emptyResultEnv
          (find_part_by_mpn emptyResultEnv [] "1N5822").cache "1N5822").events ≤ 1) := by
  decide

/-- C2 (amended): if the first call returns a (non-empty) catalog entry and cache
storage I/O for that key succeeds, then the second call with the same identifier
issues no external call, is served from the cache, and returns the same entry; in
total the two calls issue at most one external call. -/
theorem cache_idempotence_of_found (env : ClientEnv) (cache : Cache Json) (mpn : String)
    (part : Json)
    (h1 : (find_part_by_mpn env cache mpn).result = some part)
    (htr : jsonTruthy part = true)
    (hw : env.cacheWriteOk (cacheKey mpn) = true)
    (hr : env.cacheReadOk (cacheKey mpn) = true) :
    (find_part_by_mpn env (find_part_by_mpn env cache mpn).cache mpn).result = some part ∧
    httpCount (find_part_by_mpn env (find_part_by_mpn env cache mpn).cache mpn).events = 0 ∧
    httpCount (find_part_by_mpn env cache mpn).events +
      httpCount (find_part_by_mpn env (find_part_by_mpn env cache mpn).cache mpn).events
      ≤ 1 := by
  by_cases hm : mpn = ""
  · rw [hm] at h1
    simp [find_part_by_mpn] at h1
  · cases hget : Cache.get cache (cacheKey mpn) with
    | some p =>
        have hf1 := find_part_hit env cache mpn p hm hget hr
        rw [hf1] at h1
        have hp : p = part := Option.some.inj h1
        subst hp
        rw [hf1, find_part_hit env cache mpn p hm hget hr]
        refine ⟨rfl, rfl, ?_⟩
        simp [httpCount]
    | none =>
        have hmiss := find_part_miss env cache mpn hm hget
        rw [hmiss] at h1
        obtain ⟨hk, results, hresp, hfp⟩ := fetch_result_some_inv env cache mpn [] part h1
        have hfw := fetch_eq_found_write env cache mpn [] part results hk hresp hfp htr hw
        rw [hmiss, hfw]
        have hget2 : Cache.get (Cache.put cache (cacheKey mpn) part) (cacheKey mpn) =
            some part := Cache.get_put_self _ _ _
        rw [find_part_hit env _ mpn part hm hget2 hr]
        refine ⟨rfl, rfl, ?_⟩
        simp [httpCount]

theorem cache_idempotence_of_found_witness :
    (find_part_by_mpn singleResultEnv
        (find_part_by_mpn singleResultEnv [] "A1").cache "A1").result =
      some (.obj [("mpn", .str "RC0402JR-071RL")]) ∧
    httpCount (find_part_by_mpn singleResultEnv
        (find_part_by_mpn singleResultEnv [] "A1").cache "A1").events = 0 ∧
    httpCount (find_part_by_mpn singleResultEnv [] "A1").events +
      httpCount (find_part_by_mpn singleResultEnv
        (find_part_by_mpn singleResultEnv [] "A1").cache "A1").events ≤ 1 :=
  cache_idempotence_of_found singleResultEnv [] "A1" (.obj [("mpn", .str "RC0402JR-071RL")])
    rfl rfl rfl rfl

theorem semReachable_free_add_holding (cap : Nat) (s : SemState)
    (h : SemReachable cap s) : s.free + s.holding = cap := by
  induction h with
  | init => rfl
  | step _ hstep ih =>
      cases hstep with
      | acquire hfree => simp only [] at ih ⊢; omega
      | release hhold => simp only [] at ih ⊢; omega

/-- C3: with the shared `asyncio.Semaphore(10)`, in every reachable semaphore state at
most 10 tasks are inside the `async with sema` block — i.e. at most 10 external
catalog calls are in flight simultaneously, however many lookups are pending; and a
lookup that is served from the cache performs exactly one cache read and nothing
else, in particular it never acquires a limiter slot. -/
theorem catalog_concurrency_bounded :
    (∀ s : SemState, SemReachable OCTOPART_SEMAPHORE_CAPACITY s →
      s.holding ≤ OCTOPART_SEMAPHORE_CAPACITY) ∧
    (∀ (env : ClientEnv) (cache : Cache Json) (mpn : String) (part : Json),
      mpn ≠ "" → Cache.get cache (cacheKey mpn) = some part →
      env.cacheReadOk (cacheKey mpn) = true →
      (find_part_by_mpn env cache mpn).events =
        [ClientEvent.cacheRead (cacheKey mpn)]) := by
  constructor
  · intro s h
    have := semReachable_free_add_holding OCTOPART_SEMAPHORE_CAPACITY s h
    omega
  · intro env cache mpn part hm hg hr
    rw [find_part_hit env cache mpn part hm hg hr]

theorem catalog_concurrency_bounded_witness :
    (⟨10, 0⟩ : SemState).holding ≤ OCTOPART_SEMAPHORE_CAPACITY ∧
    (find_part_by_mpn singleResultEnv [(cacheKey "A1", Json.str "cached")] "A1").events =
      [ClientEvent.cacheRead (cacheKey "A1")] :=
  ⟨catalog_concurrency_bounded.1 ⟨10, 0⟩ SemReachable.init,
   catalog_concurrency_bounded.2 singleResultEnv [(cacheKey "A1", Json.str "cached")]
     "A1" (Json.str "cached") (by decide) rfl rfl⟩

/-- C4: the catalog lookup never raises — every failure branch of the embedding
returns `none` in-band.  Concretely: (a) for the empty identifier it returns `none`
at once, performing no cache access and no network access (its event trace is empty
and the cache is untouched); (b) on a cache miss, any transport error, HTTP error
status (including rate limiting), unexpected exception, or a body carrying a GraphQL
`errors` field yields `none` and leaves the cache unchanged. -/
theorem find_part_never_raises :
    (∀ (env : ClientEnv) (cache : Cache Json),
      find_part_by_mpn env cache "" = ⟨none, cache, []⟩) ∧
    (∀ (env : ClientEnv) (cache : Cache Json) (mpn : String),
      Cache.get cache (cacheKey mpn) = none →
      responseFails (env.response mpn) = true →
      (find_part_by_mpn env cache mpn).result = none ∧
      (find_part_by_mpn env cache mpn).cache = cache) := by
  constructor
  · intro env cache
    rw [find_part_by_mpn, if_pos rfl]
  · intro env cache mpn hg hf
    by_cases hm : mpn = ""
    · rw [hm, find_part_by_mpn, if_pos rfl]
      exact ⟨rfl, rfl⟩
    · rw [find_part_miss env cache mpn hm hg]
      cases hk : env.apiKeySet with
      | false => rw [fetch_eq_noKey env cache mpn [] hk]; exact ⟨rfl, rfl⟩
      | true => rw [fetch_eq_fail env cache mpn [] hk hf]; exact ⟨rfl, rfl⟩

theorem find_part_never_raises_witness :
    (find_part_by_mpn transportFailEnv [] "" = ⟨none, [], []⟩) ∧
    (find_part_by_mpn transportFailEnv [] "A1").result = none ∧
    (find_part_by_mpn transportFailEnv [] "A1").cache = [] :=
  ⟨find_part_never_raises.1 transportFailEnv [],
   find_part_never_raises.2 transportFailEnv [] "A1" rfl rfl⟩

/-- C10: when the external service responds with a well-formed body holding zero
results, the lookup returns `none` and writes nothing — the cache is exactly as
before — so a subsequent lookup of the same identifier performs a fresh external call
(one `httpPost` in each of the two traces). -/
theorem empty_result_not_cached (env : ClientEnv) (cache : Cache Json) (mpn : String)
    (hm : mpn ≠ "") (hg : Cache.get cache (cacheKey mpn) = none)
    (hk : env.apiKeySet = true) (hresp : env.response mpn = .body false []) :
    (find_part_by_mpn env cache mpn).result = none ∧
    (find_part_by_mpn env cache mpn).cache = cache ∧
    httpCount (find_part_by_mpn env cache mpn).events = 1 ∧
    httpCount (find_part_by_mpn env
      (find_part_by_mpn env cache mpn).cache mpn).events = 1 := by
  have h1 : find_part_by_mpn env cache mpn =
      ⟨none, cache,
        [ClientEvent.semAcquire, ClientEvent.httpPost mpn, ClientEvent.semRelease]⟩ := by
    rw [find_part_miss env cache mpn hm hg,
      fetch_eq_emptyResults env cache mpn [] [] hk hresp rfl]
    rfl
  rw [h1]
  refine ⟨rfl, rfl, rfl, ?_⟩
  rw [h1]
  rfl

theorem empty_result_not_cached_witness :
    (find_part_by_mpn emptyResultEnv [] "1N5822").result = none ∧
    (find_part_by_mpn emptyResultEnv [] "1N5822").cache = [] ∧
    httpCount (find_part_by_mpn emptyResultEnv [] "1N5822").events = 1 ∧
    httpCount (find_part_by_mpn emptyResultEnv
      (find_part_by_mpn emptyResultEnv [] "1N5822").cache "1N5822").events = 1 :=
  empty_result_not_cached emptyResultEnv [] "1N5822" (by decide) rfl rfl rfl

/-- C5 counterexample: in `logic._parse_and_enrich_row` the construction of the
`OctopartPart` object from the catalog payload runs directly under the outer `try`,
so a catalog-data validation failure on a row with a non-empty identifier converts
that row into a row-error record (while the `service.py` variant of the same worker
keeps the parsed item, as the claim describes). -/
theorem catalog_failure_rowerror_counterexample :
    logic_parse_and_enrich_row buildFailRowEnv 0 noQuantityRow =
      .inr ⟨"Failed to process row 1", "1 validation error for OctopartPart",
        noQuantityRow⟩ ∧
    service_parse_and_enrich_row buildFailRowEnv 0 noQuantityRow = .inl okItem :=
  ⟨rfl, rfl⟩

/-- C5 (amended): for a row whose extracted item has a non-empty part identifier, a
catalog miss leaves the item without catalog data in both workers; a catalog-data
build failure also keeps the item in the `service.py` worker, but in the `logic.py`
worker it converts the row into a `RowError`. -/
theorem worker_catalog_failure_handling (env : RowEnv) (index : Nat) (rowData : Json)
    (item : ParsedBomItem) (hx : extractionOf env = .ok item) :
    (env.lookupResult = none →
      service_parse_and_enrich_row env index rowData = .inl item ∧
      logic_parse_and_enrich_row env index rowData = .inl item) ∧
    (∀ (raw : Json) (msg mpn : String),
      item.manufacturer_part_number = some mpn → mpn ≠ "" →
      env.lookupResult = some raw → jsonTruthy raw = true →
      env.build raw = .error msg →
      service_parse_and_enrich_row env index rowData = .inl item ∧
      logic_parse_and_enrich_row env index rowData =
        .inr ⟨"Failed to process row " ++ toString (index + 1), msg, rowData⟩) := by
  constructor
  · intro hlk
    cases hmpn : item.manufacturer_part_number with
    | none =>
        simp [service_parse_and_enrich_row, logic_parse_and_enrich_row, hx, hmpn]
    | some mpn =>
        by_cases hm : mpn = ""
        · simp [service_parse_and_enrich_row, logic_parse_and_enrich_row, hx, hmpn, hm]
        · simp [service_parse_and_enrich_row, logic_parse_and_enrich_row, hx, hmpn,
            hm, hlk]
  · intro raw msg mpn hmpn hm hlk htr hbuild
    simp [service_parse_and_enrich_row, logic_parse_and_enrich_row, hx, hmpn, hm,
      hlk, htr, hbuild]

theorem worker_catalog_failure_handling_witness :
    service_parse_and_enrich_row buildFailRowEnv 3 noQuantityRow = .inl okItem ∧
    logic_parse_and_enrich_row buildFailRowEnv 3 noQuantityRow =
      .inr ⟨"Failed to process row 4", "1 validation error for OctopartPart",
        noQuantityRow⟩ :=
  (worker_catalog_failure_handling buildFailRowEnv 3 noQuantityRow okItem rfl).2
    (.obj [("similarParts", .str "oops")]) "1 validation error for OctopartPart" "A1"
    rfl (by decide) rfl rfl rfl

/-- C6 (code bug): the summary returned by `get_bom_data_with_alternatives` — the
value the caller sees for the batch — drops every row-error record: the error record
has no `manufacturer_part_number`, so the `continue` guard fires before the
`if "error" in item` branch can append it (that branch is unreachable).  A batch with
one failed row and one good row returns a summary containing only the good entry. -/
theorem rowerror_dropped_from_summary :
    summaryOf [Sum.inr sampleRowError] = [] ∧
    summaryOf [Sum.inr sampleRowError, Sum.inl sampleGoodItem] =
      [summaryPartEntry sampleGoodItem] :=
  ⟨rfl, rfl⟩

/-- C7: `evaluate_alternative` never raises on missing data — each of the three
not-found conditions returns an `is_valid=false` verdict whose reasoning names the
missing piece: an unknown job mentions "job", an unknown original MPN mentions
"original", an unknown candidate mentions "alternative" (case-insensitively, as
the reasoning strings capitalise the keywords). -/
theorem evaluate_not_found_verdicts (judgment : Except String ValidationResult)
    (assumptions : Json) (jobId origMpn altMpn : String)
    (cache : Cache (List ProcessedItem)) :
    (jobLookup cache jobId = none →
      (evaluate_alternative judgment assumptions jobId origMpn altMpn
        cache).validation_result.is_valid = false ∧
      strMentions (evaluate_alternative judgment assumptions jobId origMpn altMpn
        cache).validation_result.reasoning "job" = true) ∧
    (∀ data, jobLookup cache jobId = some data →
      data.find? (fun it => itemMpn it == some origMpn) = none →
      (evaluate_alternative judgment assumptions jobId origMpn altMpn
        cache).validation_result.is_valid = false ∧
      strMentions (evaluate_alternative judgment assumptions jobId origMpn altMpn
        cache).validation_result.reasoning "original" = true) ∧
    (∀ data orig, jobLookup cache jobId = some data →
      data.find? (fun it => itemMpn it == some origMpn) = some orig →
      (itemSimilarParts orig).find? (fun p => p.mpn == some altMpn) = none →
      (evaluate_alternative judgment assumptions jobId origMpn altMpn
        cache).validation_result.is_valid = false ∧
      strMentions (evaluate_alternative judgment assumptions jobId origMpn altMpn
        cache).validation_result.reasoning "alternative" = true) := by
  refine ⟨?_, ?_, ?_⟩
  · intro hjob
    simp only [evaluate_alternative, hjob]
    exact ⟨by simp,
      strMentions_append_left _ _ _ (strMentions_append_left _ _ _ (by decide))⟩
  · intro data hjob hfind
    simp only [evaluate_alternative, hjob, hfind]
    exact ⟨by simp,
      strMentions_append_left _ _ _ (strMentions_append_left _ _ _ (by decide))⟩
  · intro data orig hjob hfind halt
    simp only [evaluate_alternative, hjob, hfind, halt]
    exact ⟨by simp,
      strMentions_append_left _ _ _ (strMentions_append_left _ _ _
        (strMentions_append_left _ _ _ (strMentions_append_left _ _ _ (by decide))))⟩

theorem evaluate_not_found_verdicts_witness :
    ((evaluate_alternative (.error "e") Json.null "nojob" "A1" "B1"
        sampleJobCache).validation_result.is_valid = false ∧
      strMentions (evaluate_alternative (.error "e") Json.null "nojob" "A1" "B1"
        sampleJobCache).validation_result.reasoning "job" = true) ∧
    ((evaluate_alternative (.error "e") Json.null "job1" "Z9" "B1"
        sampleJobCache).validation_result.is_valid = false ∧
      strMentions (evaluate_alternative (.error "e") Json.null "job1" "Z9" "B1"
        sampleJobCache).validation_result.reasoning "original" = true) ∧
    ((evaluate_alternative (.error "e") Json.null "job1" "A1" "Z8"
        sampleJobCache).validation_result.is_valid = false ∧
      strMentions (evaluate_alternative (.error "e") Json.null "job1" "A1" "Z8"
        sampleJobCache).validation_result.reasoning "alternative" = true) :=
  ⟨(evaluate_not_found_verdicts (.error "e") Json.null "nojob" "A1" "B1"
      sampleJobCache).1 rfl,
   (evaluate_not_found_verdicts (.error "e") Json.null "job1" "Z9" "B1"
      sampleJobCache).2.1 _ rfl rfl,
   (evaluate_not_found_verdicts (.error "e") Json.null "job1" "A1" "Z8"
      sampleJobCache).2.2 _ _ rfl rfl rfl⟩

/-- C8 (code bug evidence): the fan-out in `main.stream_text` builds each evaluation
task with keyword arguments `part` and `assumptions`, which do not bind to
`evaluate_alternative`'s parameters (`job_id`, `original_mpn`, `alternative_mpn`,
`assumptions`, `cache`) — the call raises `TypeError` during task construction, so
the whole fan-out aborts instead of isolating per-candidate failures.  The evaluator
itself does honour the claim: a judgment-capability failure for one candidate is
caught and becomes an `is_valid=false` verdict with an internal-error reasoning. -/
theorem evaluation_fanout_kwargs_mismatch :
    pythonKwargsBind evaluate_alternative_params stream_text_evaluate_kwargs = false ∧
    (evaluate_alternative (.error "judgment capability failure") Json.null "job1" "A1"
        "B1" sampleJobCache).validation_result =
      ⟨false, "An internal error occurred during validation: judgment capability failure"⟩ :=
  ⟨rfl, rfl⟩

/-- C9 counterexample: nothing in the code enforces the quantity law — the schema
accepts any integer.  For a row whose quantity field is absent and whose extraction
reply lists 2 designators but quantity `-5`, validation succeeds and the worker
returns a `ParsedBomItem` with quantity `-5`: not the designator count, and negative. -/
theorem quantity_law_counterexample :
    Json.getField noQuantityRow "Quantity" = none ∧
    logic_parse_and_enrich_row negativeQuantityRowEnv 0 noQuantityRow =
      .inl (twoDesignatorItem (-5)) ∧
    (twoDesignatorItem (-5)).designators.length = 2 ∧
    (twoDesignatorItem (-5)).quantity = -5 ∧
    ¬ 0 ≤ (twoDesignatorItem (-5)).quantity ∧
    (twoDesignatorItem (-5)).quantity ≠ 2 := by
  refine ⟨rfl, rfl, rfl, rfl, by decide, by decide⟩

/-- C9 (amended): quantity inference is delegated to the extraction capability — the
row prompt instructs it to count designators when quantity is missing — and the
schema validates only that `quantity` is an integer: every integer (negative, or
differing from the designator count) passes `ParsedBomItem.model_validate`, while a
non-integer quantity is rejected. -/
theorem quantity_unconstrained_integer :
    (∀ q : Int, ParsedBomItem_model_validate (twoDesignatorReply q) =
      .ok (twoDesignatorItem q)) ∧
    ParsedBomItem_model_validate nonIntQuantityReply =
      .error "Input should be a valid integer" ∧
    strMentions logic_row_system_prompt
      "If quantity is missing, count the designators" = true := by
  refine ⟨fun q => rfl, rfl, by decide⟩
